import Mathlib

/-!
Shallow embedding of the rotation core of `wallpaper-manager.py`
(Wallpaper Gacha Manager): the persistent display-history store, the
unshown-candidate selection with its lazy cycle reset, the display-marking
upsert, and the `change_wallpaper` orchestration.

Timestamps (`datetime.now().isoformat()` in the source) are modelled as
abstract `Nat` values passed in explicitly.  The image pool
(`get_available_images`, a directory glob) is modelled as a list of
filenames passed in explicitly; each point in the Python code that re-reads
the directory receives its own pool argument.  Subprocess outcomes (rsync,
hyprctl) are modelled as explicit booleans.
-/

/-- One row of the `wallpaper_history` table (the SQLite `id` column is an
autoincrement surrogate key and carries no information; `filename` is
`UNIQUE`). -/
structure ImageRecord where
  filename : String
  first_displayed_at : Nat
  last_displayed_at : Nat
  display_count : Nat
deriving Repr, DecidableEq

/-- The persisted store: the `wallpaper_history` rows plus the singleton
`rotation_state` row (`all_images_shown`, `last_reset_at`). -/
structure Store where
  records : List ImageRecord
  all_images_shown : Bool
  last_reset_at : Option Nat
deriving Repr, DecidableEq

/-- The store produced by `init_database` on a fresh installation: no
history rows, `all_images_shown` defaults to 0, `last_reset_at` NULL. -/
def initStore : Store := ⟨[], false, none⟩

/-- The query `SELECT filename FROM wallpaper_history WHERE display_count > 0`. -/
def shownFilenames (s : Store) : List String :=
  (s.records.filter (fun r => 0 < r.display_count)).map (fun r => r.filename)

/-- The query `SELECT COUNT(*) FROM wallpaper_history WHERE display_count > 0`. -/
def shownCount (s : Store) : Nat :=
  (s.records.filter (fun r => 0 < r.display_count)).length

/-- The reset block inside `get_unshown_images`:
`UPDATE wallpaper_history SET display_count = 0` and
`UPDATE rotation_state SET all_images_shown = 0, last_reset_at = ?`. -/
def resetCycle (s : Store) (now : Nat) : Store :=
  { records := s.records.map (fun r => { r with display_count := 0 }),
    all_images_shown := false,
    last_reset_at := some now }

/-- Function `get_unshown_images`: read `all_images_shown`; if set, perform the
cycle reset; then read the shown filenames and filter them out of the
pool.  Returns the store as left behind on disk together with the
returned list. -/
def get_unshown_images (pool : List String) (s : Store) (now : Nat) :
    Store × List String :=
  let s1 := if s.all_images_shown then resetCycle s now else s
  let shown := shownFilenames s1
  (s1, pool.filter (fun f => ¬ f ∈ shown))

/-- The `INSERT ... ON CONFLICT(filename) DO UPDATE` statement in
`mark_image_displayed`: insert a fresh row with count 1, or bump
`display_count` and `last_displayed_at` on the existing row. -/
def upsertRecord (records : List ImageRecord) (filename : String) (now : Nat) :
    List ImageRecord :=
  if records.any (fun r => r.filename = filename) then
    records.map (fun r =>
      if r.filename = filename then
        { r with last_displayed_at := now, display_count := r.display_count + 1 }
      else r)
  else
    records ++ [⟨filename, now, now, 1⟩]

/-- Function `mark_image_displayed`: upsert the row, then re-count the shown rows
and re-read the pool size from disk (`total_images` here); if
`shown_count >= total_images and total_images > 0`, set
`all_images_shown = 1`, otherwise leave the flag as it was. -/
def mark_image_displayed (s : Store) (filename : String) (now : Nat)
    (total_images : Nat) : Store :=
  let records := upsertRecord s.records filename now
  let shown_count := (records.filter (fun r => 0 < r.display_count)).length
  { s with
    records := records,
    all_images_shown :=
      if total_images ≤ shown_count ∧ 0 < total_images then true
      else s.all_images_shown }

/-- Lookup of the unique row for a filename. -/
def findRecord (s : Store) (f : String) : Option ImageRecord :=
  s.records.find? (fun r => r.filename = f)

/-- Function `set_wallpaper_hyprpaper`: if the `hyprctl hyprpaper preload` step
fails, return False at once; otherwise loop over the monitors issuing the
per-monitor `wallpaper` command, where a non-zero return code is only
logged, and return True unconditionally at the end. -/
def set_wallpaper_hyprpaper (preload_ok : Bool) (monitor_results : List Bool) :
    Bool :=
  if !preload_ok then false
  else true

/-- The environment of one `change_wallpaper` call: the pool as read by
the first and (after a sync) second `get_unshown_images` call, the
outcome of `sync_images`, the random choice, the hyprctl outcomes, the
pool as re-read inside `mark_image_displayed`, and the timestamps. -/
structure CycleEnv where
  pool1 : List String
  tSel1 : Nat
  sync_ok : Bool
  pool2 : List String
  tSel2 : Nat
  pick : Nat
  preload_ok : Bool
  monitor_results : List Bool
  poolRec : List String
  tRec : Nat
deriving Repr

/-- Outcome of one `change_wallpaper` call: the store left on disk, the
boolean return value, how many times `sync_images` was invoked from
inside the call, and which filename (if any) was passed to
`mark_image_displayed`. -/
structure CycleResult where
  store : Store
  success : Bool
  sync_calls : Nat
  recorded : Option String
deriving Repr, DecidableEq

/-- Python `random.choice` on a non-empty list, modelled as an index reduced
modulo the length (on an empty list the source would raise; the callers
below only reach it on non-empty lists). -/
def chooseImage (unshown : List String) (pick : Nat) : String :=
  unshown.getD (pick % unshown.length) ""

/-- Function `change_wallpaper`: compute the unshown images; if empty, try one
`sync_images` and recompute once; if still empty return False; otherwise
pick a random candidate, call `set_wallpaper_hyprpaper`, and only on its
success call `mark_image_displayed` and return True. -/
def change_wallpaper (env : CycleEnv) (s : Store) : CycleResult :=
  let r1 := get_unshown_images env.pool1 s env.tSel1
  if r1.2.isEmpty then
    if env.sync_ok then
      let r2 := get_unshown_images env.pool2 r1.1 env.tSel2
      if r2.2.isEmpty then
        ⟨r2.1, false, 1, none⟩
      else
        let selected := chooseImage r2.2 env.pick
        if set_wallpaper_hyprpaper env.preload_ok env.monitor_results then
          ⟨mark_image_displayed r2.1 selected env.tRec env.poolRec.length,
            true, 1, some selected⟩
        else
          ⟨r2.1, false, 1, none⟩
    else
      ⟨r1.1, false, 1, none⟩
  else
    let selected := chooseImage r1.2 env.pick
    if set_wallpaper_hyprpaper env.preload_ok env.monitor_results then
      ⟨mark_image_displayed r1.1 selected env.tRec env.poolRec.length,
        true, 0, some selected⟩
    else
      ⟨r1.1, false, 0, none⟩

/-- "Every filename currently present in the pool has a history row with
`display_count > 0`." -/
def allPoolShown (pool : List String) (s : Store) : Prop :=
  ∀ f ∈ pool, f ∈ shownFilenames s

instance (pool : List String) (s : Store) : Decidable (allPoolShown pool s) :=
  inferInstanceAs (Decidable (∀ f ∈ pool, f ∈ shownFilenames s))

/-- Store states reachable, for a pool held fixed on disk, from a fresh
installation through the two store-mutating entry points of the program:
a `get_unshown_images` call, and a `mark_image_displayed` call made by
`change_wallpaper` on a filename drawn from the candidates that the
preceding `get_unshown_images` returned (with the pool size re-read at
record time, equal to `pool.length` since the pool is fixed). -/
inductive Reachable (pool : List String) : Store → Prop
  | init : Reachable pool initStore
  | select (s : Store) (t : Nat) :
      Reachable pool s → Reachable pool (get_unshown_images pool s t).1
  | record (s : Store) (t t2 : Nat) (f : String) :
      Reachable pool s →
      f ∈ (get_unshown_images pool s t).2 →
      Reachable pool
        (mark_image_displayed (get_unshown_images pool s t).1 f t2 pool.length)

/-- The filenames column of the history table, in row order. -/
def recordFilenames (s : Store) : List String :=
  s.records.map (fun r => r.filename)

/-- The shown-filename list of a raw row list. -/
def shownOf (l : List ImageRecord) : List String :=
  (l.filter (fun r => 0 < r.display_count)).map (fun r => r.filename)

/-- A sequence of `mark_image_displayed` calls, each with its own
timestamp, all seeing the same on-disk pool size (the pool is held fixed
across the calls). -/
def markAll (s : Store) (fs : List (String × Nat)) (total : Nat) : Store :=
  fs.foldl (fun acc p => mark_image_displayed acc p.1 p.2 total) s

/-- Auxiliary invariant for the fixed-pool reachability analysis: record
filenames are unique, every shown filename names a pool file, and the
flag tracks the all-shown predicate. -/
def StoreInv (pool : List String) (s : Store) : Prop :=
  (recordFilenames s).Nodup ∧
  (∀ x ∈ shownFilenames s, x ∈ pool) ∧
  (s.all_images_shown = true ↔ allPoolShown pool s)

section Lemmas

lemma shownCount_eq (s : Store) : shownCount s = (shownFilenames s).length := by
  simp [shownCount, shownFilenames]

lemma recordFilenames_reset (s : Store) (t : Nat) :
    recordFilenames (resetCycle s t) = recordFilenames s := by
  simp [recordFilenames, resetCycle]

lemma shownFilenames_reset (s : Store) (t : Nat) :
    shownFilenames (resetCycle s t) = [] := by
  simp [shownFilenames, resetCycle, List.filter_map]

lemma reset_count_zero (s : Store) (t : Nat) :
    ∀ r ∈ (resetCycle s t).records, r.display_count = 0 := by
  intro r hr
  simp only [resetCycle, List.mem_map] at hr
  obtain ⟨a, _, rfl⟩ := hr
  rfl

lemma get_unshown_of_exhausted {s : Store} (pool : List String) (t : Nat)
    (h : s.all_images_shown = true) :
    get_unshown_images pool s t = (resetCycle s t, pool) := by
  simp [get_unshown_images, h, shownFilenames_reset]

lemma get_unshown_of_not_exhausted {s : Store} (pool : List String) (t : Nat)
    (h : s.all_images_shown = false) :
    (get_unshown_images pool s t).1 = s := by
  simp [get_unshown_images, h]

lemma get_unshown_flag_false (pool : List String) (s : Store) (t : Nat) :
    (get_unshown_images pool s t).1.all_images_shown = false := by
  by_cases h : s.all_images_shown = true
  · rw [get_unshown_of_exhausted pool t h]
    rfl
  · rw [get_unshown_of_not_exhausted pool t (by simpa using h)]
    simpa using h

lemma mem_get_unshown {pool : List String} {s : Store} {t : Nat} {f : String}
    (hf : f ∈ (get_unshown_images pool s t).2) :
    f ∈ pool ∧ ¬ f ∈ shownFilenames (get_unshown_images pool s t).1 := by
  simp only [get_unshown_images, List.mem_filter, decide_eq_true_eq] at hf ⊢
  exact hf

lemma upsert_absent {l : List ImageRecord} {f : String} {t : Nat}
    (h : ∀ r ∈ l, r.filename ≠ f) :
    upsertRecord l f t = l ++ [⟨f, t, t, 1⟩] := by
  have hany : l.any (fun r => r.filename = f) = false := by
    simp only [List.any_eq_false, decide_eq_true_eq]
    exact h
  simp [upsertRecord, hany]

lemma upsert_concat_self {l : List ImageRecord} {f : String} {t1 t2 : Nat}
    (h : ∀ r ∈ l, r.filename ≠ f) :
    upsertRecord (l ++ [⟨f, t1, t1, 1⟩]) f t2 = l ++ [⟨f, t1, t2, 2⟩] := by
  have hany : (l ++ [(⟨f, t1, t1, 1⟩ : ImageRecord)]).any
      (fun r => r.filename = f) = true := by
    simp
  simp only [upsertRecord, hany, if_true, List.map_append]
  congr 1
  · refine (List.map_congr_left ?_).trans (List.map_id l)
    intro r hr
    simp [h r hr]
  · simp

lemma find_eq_of_forall_ne {l : List ImageRecord} {f : String} {rec : ImageRecord}
    (h : ∀ r ∈ l, r.filename ≠ f) (hrec : rec.filename = f) :
    (l ++ [rec]).find? (fun r => r.filename = f) = some rec := by
  induction l with
  | nil => simp [List.find?, hrec]
  | cons a as ih =>
    rw [List.cons_append, List.find?_cons_of_neg _ (by simp [h a (by simp)])]
    exact ih (fun r hr => h r (by simp [hr]))

lemma upsert_filenames_of_any {l : List ImageRecord} {f : String} {t : Nat}
    (h : l.any (fun r => r.filename = f) = true) :
    (upsertRecord l f t).map (fun r => r.filename) = l.map (fun r => r.filename) := by
  simp only [upsertRecord, h, if_true, List.map_map]
  refine List.map_congr_left ?_
  intro r _
  by_cases hrf : r.filename = f <;> simp [hrf]

lemma upsert_filename_nodup {l : List ImageRecord} {f : String} {t : Nat}
    (h : (l.map (fun r => r.filename)).Nodup) :
    ((upsertRecord l f t).map (fun r => r.filename)).Nodup := by
  by_cases hany : l.any (fun r => r.filename = f) = true
  · rw [upsert_filenames_of_any hany]
    exact h
  · have hne : ∀ r ∈ l, r.filename ≠ f := by
      simpa [List.any_eq_false, decide_eq_true_eq] using hany
    rw [upsert_absent hne, List.map_append]
    simp only [List.map_cons, List.map_nil]
    rw [List.nodup_append]
    refine ⟨h, by simp, ?_⟩
    intro x hx
    simp only [List.mem_map] at hx
    obtain ⟨r, hr, rfl⟩ := hx
    simp [hne r hr]

lemma shownFilenames_eq_shownOf (s : Store) : shownFilenames s = shownOf s.records := rfl

lemma mem_shownOf {l : List ImageRecord} {x : String} :
    x ∈ shownOf l ↔ ∃ r ∈ l, 0 < r.display_count ∧ r.filename = x := by
  simp only [shownOf, List.mem_map, List.mem_filter, decide_eq_true_eq]
  constructor
  · rintro ⟨r, ⟨hr, hc⟩, rfl⟩
    exact ⟨r, hr, hc, rfl⟩
  · rintro ⟨r, hr, hc, rfl⟩
    exact ⟨r, ⟨hr, hc⟩, rfl⟩

lemma shown_mono_upsert {l : List ImageRecord} {g : String} {t : Nat} {x : String}
    (hx : x ∈ shownOf l) : x ∈ shownOf (upsertRecord l g t) := by
  rw [mem_shownOf] at hx
  obtain ⟨r, hr, hc, rfl⟩ := hx
  rw [mem_shownOf]
  unfold upsertRecord
  split
  · refine ⟨if r.filename = g then
        { r with last_displayed_at := t, display_count := r.display_count + 1 }
      else r, List.mem_map_of_mem _ hr, ?_⟩
    by_cases hrg : r.filename = g <;> simp [hrg, hc]
  · exact ⟨r, by simp [hr], hc, rfl⟩

lemma self_mem_shown_upsert (l : List ImageRecord) (f : String) (t : Nat) :
    f ∈ shownOf (upsertRecord l f t) := by
  rw [mem_shownOf]
  unfold upsertRecord
  split
  · rename_i hany
    simp only [List.any_eq_true, decide_eq_true_eq] at hany
    obtain ⟨r, hr, hrf⟩ := hany
    refine ⟨{ r with last_displayed_at := t, display_count := r.display_count + 1 },
      ?_, by simp, by simp [hrf]⟩
    have heq : (if r.filename = f then
        { r with last_displayed_at := t, display_count := r.display_count + 1 }
      else r)
        = { r with last_displayed_at := t, display_count := r.display_count + 1 } := by
      simp [hrf]
    exact heq ▸ List.mem_map_of_mem _ hr
  · exact ⟨⟨f, t, t, 1⟩, by simp, by simp, rfl⟩

lemma shown_subset_upsert {l : List ImageRecord} {f : String} {t : Nat} {x : String}
    (hx : x ∈ shownOf (upsertRecord l f t)) : x = f ∨ x ∈ shownOf l := by
  rw [mem_shownOf] at hx
  obtain ⟨r, hr, hc, rfl⟩ := hx
  revert hr
  unfold upsertRecord
  split
  · intro hr
    simp only [List.mem_map] at hr
    obtain ⟨a, ha, rfl⟩ := hr
    by_cases hag : a.filename = f
    · left
      simp [hag]
    · right
      rw [mem_shownOf]
      refine ⟨a, ha, ?_, by simp [hag]⟩
      simpa [hag] using hc
  · intro hr
    rcases List.mem_append.mp hr with h1 | h2
    · right
      rw [mem_shownOf]
      exact ⟨r, h1, hc, rfl⟩
    · left
      simp only [List.mem_singleton] at h2
      simp [h2]

end Lemmas

example : get_unshown_images ["a", "b"] initStore 0 = (initStore, ["a", "b"]) := by
  decide

example :
    shownFilenames (mark_image_displayed initStore "a" 3 2) = ["a"] := by
  decide

example :
    (mark_image_displayed (mark_image_displayed initStore "a" 3 2) "b" 4 2).all_images_shown
      = true := by
  decide

section Counting

lemma mem_of_nodup_subset_length_le {l pool : List String}
    (hl : l.Nodup) (hsub : ∀ x ∈ l, x ∈ pool) (hp : pool.Nodup)
    (hlen : pool.length ≤ l.length) : ∀ x ∈ pool, x ∈ l := by
  have h1 : l.toFinset ⊆ pool.toFinset := by
    intro x hx
    simp only [List.mem_toFinset] at hx ⊢
    exact hsub x hx
  have h2 : pool.toFinset.card ≤ l.toFinset.card := by
    rw [List.toFinset_card_of_nodup hl, List.toFinset_card_of_nodup hp]
    exact hlen
  have h3 : l.toFinset = pool.toFinset := Finset.eq_of_subset_of_card_le h1 h2
  intro x hx
  have hx2 : x ∈ pool.toFinset := List.mem_toFinset.mpr hx
  rw [← h3] at hx2
  exact List.mem_toFinset.mp hx2

lemma length_le_of_nodup_subset {pool l : List String}
    (hp : pool.Nodup) (hsub : ∀ x ∈ pool, x ∈ l) : pool.length ≤ l.length :=
  calc pool.length = pool.toFinset.card := (List.toFinset_card_of_nodup hp).symm
    _ ≤ l.toFinset.card := Finset.card_le_card (by
        intro x hx
        simp only [List.mem_toFinset] at hx ⊢
        exact hsub x hx)
    _ ≤ l.length := l.toFinset_card_le

lemma shownFilenames_nodup {s : Store} (h : (recordFilenames s).Nodup) :
    (shownFilenames s).Nodup := by
  have hsub : List.Sublist
      ((s.records.filter (fun r => 0 < r.display_count)).map (fun r => r.filename))
      (s.records.map (fun r => r.filename)) :=
    (List.filter_sublist s.records).map (fun r => r.filename)
  exact h.sublist hsub

end Counting

section MarkLemmas

lemma mark_records (s : Store) (f : String) (t tot : Nat) :
    (mark_image_displayed s f t tot).records = upsertRecord s.records f t := rfl

lemma mark_flag (s : Store) (f : String) (t tot : Nat) :
    (mark_image_displayed s f t tot).all_images_shown =
      (if tot ≤ shownCount (mark_image_displayed s f t tot) ∧ 0 < tot then true
       else s.all_images_shown) := rfl

lemma mark_flag_true_of_count {s : Store} {f : String} {t tot : Nat}
    (h1 : tot ≤ shownCount (mark_image_displayed s f t tot)) (h2 : 0 < tot) :
    (mark_image_displayed s f t tot).all_images_shown = true := by
  rw [mark_flag, if_pos ⟨h1, h2⟩]

lemma mark_shown (s : Store) (f : String) (t tot : Nat) :
    shownFilenames (mark_image_displayed s f t tot) = shownOf (upsertRecord s.records f t) :=
  rfl

end MarkLemmas

/-- C2: within one `get_unshown_images` call the returned list is the pool
minus the shown set read after any reset performed in that call; no
returned filename is still marked shown, and an empty pool yields an empty
result whatever the store holds. -/
theorem C2_no_repeat_within_cycle (pool : List String) (s : Store) (t : Nat) :
    (get_unshown_images pool s t).2
        = pool.filter (fun f => ¬ f ∈ shownFilenames (get_unshown_images pool s t).1) ∧
    (∀ f ∈ (get_unshown_images pool s t).2,
        ¬ f ∈ shownFilenames (get_unshown_images pool s t).1) ∧
    (get_unshown_images [] s t).2 = [] := by
  refine ⟨rfl, ?_, rfl⟩
  intro f hf
  exact (mem_get_unshown hf).2

theorem C2_no_repeat_within_cycle_witness :
    ¬ "a" ∈ shownFilenames (get_unshown_images ["a"] initStore 0).1 :=
  (C2_no_repeat_within_cycle ["a"] initStore 0).2.1 "a" (by decide)

/-- C5: when the store is exhausted, `get_unshown_images` performs the
cycle reset (all counts zeroed, flag cleared, `last_reset_at` set to now)
and then returns the full current pool; the call's whole effect is that
single reset. -/
theorem C5_reset_then_full_pool (pool : List String) (s : Store) (t : Nat)
    (h : s.all_images_shown = true) :
    get_unshown_images pool s t = (resetCycle s t, pool) ∧
    (resetCycle s t).all_images_shown = false ∧
    (∀ r ∈ (resetCycle s t).records, r.display_count = 0) ∧
    (resetCycle s t).last_reset_at = some t :=
  ⟨get_unshown_of_exhausted pool t h, rfl, reset_count_zero s t, rfl⟩

theorem C5_reset_then_full_pool_witness :
    get_unshown_images ["a", "b"] ⟨[⟨"a", 1, 1, 1⟩], true, none⟩ 9
      = (resetCycle ⟨[⟨"a", 1, 1, 1⟩], true, none⟩ 9, ["a", "b"]) :=
  (C5_reset_then_full_pool ["a", "b"] ⟨[⟨"a", 1, 1, 1⟩], true, none⟩ 9 rfl).1

/-- C6: recording a filename absent from the store at time t1 and again at
time t2 leaves one row for it with `display_count = 2`,
`first_displayed_at = t1` and `last_displayed_at = t2`. -/
theorem C6_upsert_correctness (s : Store) (f : String) (t1 t2 tot1 tot2 : Nat)
    (habs : ∀ r ∈ s.records, r.filename ≠ f) :
    findRecord
        (mark_image_displayed (mark_image_displayed s f t1 tot1) f t2 tot2) f
      = some ⟨f, t1, t2, 2⟩ := by
  unfold findRecord
  rw [mark_records, mark_records, upsert_absent habs, upsert_concat_self habs]
  exact find_eq_of_forall_ne habs rfl

theorem C6_upsert_correctness_witness :
    findRecord
        (mark_image_displayed (mark_image_displayed initStore "a" 3 5) "a" 8 5) "a"
      = some ⟨"a", 3, 8, 2⟩ :=
  C6_upsert_correctness initStore "a" 3 8 5 5 (by simp [initStore])

/-- C9: performing the cycle reset on a store that is already reset (all
counts zero, flag clear) leaves the flag false, every count zero, and the
history rows entirely unchanged. -/
theorem C9_reset_idempotent (s : Store) (t : Nat)
    (hc : ∀ r ∈ s.records, r.display_count = 0)
    (hf : s.all_images_shown = false) :
    (resetCycle s t).all_images_shown = false ∧
    (∀ r ∈ (resetCycle s t).records, r.display_count = 0) ∧
    (resetCycle s t).records = s.records := by
  refine ⟨rfl, reset_count_zero s t, ?_⟩
  show s.records.map (fun r => { r with display_count := 0 }) = s.records
  refine (List.map_congr_left ?_).trans (List.map_id s.records)
  intro r hr
  have h0 := hc r hr
  cases r
  simp only at h0
  simp [h0]

theorem C9_reset_idempotent_witness :
    (resetCycle ⟨[⟨"a", 1, 2, 0⟩], false, some 4⟩ 7).records = [⟨"a", 1, 2, 0⟩] :=
  (C9_reset_idempotent ⟨[⟨"a", 1, 2, 0⟩], false, some 4⟩ 7 (by simp) rfl).2.2

/-- C10: a `get_unshown_images` call on an exhausted store always performs
the reset, even for an empty pool (where it still mutates the persisted
state, since the flag flips to false, and returns []); the reset changes
only the counts, the flag and `last_reset_at`, preserving each row's
filename and both timestamps. -/
theorem C10_reset_frame (pool : List String) (s : Store) (t : Nat)
    (h : s.all_images_shown = true) :
    (get_unshown_images pool s t).1 = resetCycle s t ∧
    ¬ (get_unshown_images [] s t).1 = s ∧
    (get_unshown_images [] s t).2 = [] ∧
    (get_unshown_images pool s t).1.records.map
        (fun r => (r.filename, r.first_displayed_at, r.last_displayed_at))
      = s.records.map
        (fun r => (r.filename, r.first_displayed_at, r.last_displayed_at)) ∧
    (∀ r ∈ (get_unshown_images pool s t).1.records, r.display_count = 0) ∧
    (get_unshown_images pool s t).1.all_images_shown = false ∧
    (get_unshown_images pool s t).1.last_reset_at = some t := by
  have hall : ∀ q : List String, (get_unshown_images q s t).1 = resetCycle s t := by
    intro q
    rw [get_unshown_of_exhausted q t h]
  refine ⟨hall pool, ?_, ?_, ?_, ?_, ?_, ?_⟩
  · intro heq
    have h2 := get_unshown_flag_false [] s t
    rw [heq, h] at h2
    simp at h2
  · rw [get_unshown_of_exhausted [] t h]
  · rw [hall pool]
    show (s.records.map (fun r => { r with display_count := 0 })).map _ = _
    rw [List.map_map]
    rfl
  · rw [hall pool]
    exact reset_count_zero s t
  · rw [hall pool]
    rfl
  · rw [hall pool]
    rfl

theorem C10_reset_frame_witness :
    ¬ (get_unshown_images [] ⟨[⟨"a", 1, 2, 3⟩], true, none⟩ 6).1
        = ⟨[⟨"a", 1, 2, 3⟩], true, none⟩ :=
  (C10_reset_frame [] ⟨[⟨"a", 1, 2, 3⟩], true, none⟩ 6 rfl).2.1

/-- C4 as frozen is false: with an exhausted entering store, the
`change_wallpaper` call resets the cycle during selection before
activation is attempted, so a total activation failure still leaves the
history counts zeroed and the flag cleared — the store differs from the
entering one even though the cycle failed and nothing was recorded. -/
theorem C4_counterexample :
    (change_wallpaper ⟨["a"], 0, false, [], 0, 0, false, [], ["a"], 1⟩
        ⟨[⟨"a", 5, 5, 1⟩], true, none⟩).success = false ∧
    (change_wallpaper ⟨["a"], 0, false, [], 0, 0, false, [], ["a"], 1⟩
        ⟨[⟨"a", 5, 5, 1⟩], true, none⟩).recorded = none ∧
    ¬ (change_wallpaper ⟨["a"], 0, false, [], 0, 0, false, [], ["a"], 1⟩
        ⟨[⟨"a", 5, 5, 1⟩], true, none⟩).store
      = ⟨[⟨"a", 5, 5, 1⟩], true, none⟩ := by
  decide

/-- C4 amended: when activation reports total failure the cycle returns
failure and `mark_image_displayed` is never called (no record is created
or mutated by recording); the only possible store mutation is the lazy
cycle reset performed inside `get_unshown_images`, and when the entering
store is not exhausted the history and the rotation flag are completely
unchanged. -/
theorem C4_record_after_activate (env : CycleEnv) (s : Store)
    (hact : set_wallpaper_hyprpaper env.preload_ok env.monitor_results = false) :
    (change_wallpaper env s).success = false ∧
    (change_wallpaper env s).recorded = none ∧
    ((change_wallpaper env s).store = (get_unshown_images env.pool1 s env.tSel1).1 ∨
      (change_wallpaper env s).store
        = (get_unshown_images env.pool2
            (get_unshown_images env.pool1 s env.tSel1).1 env.tSel2).1) ∧
    (s.all_images_shown = false → (change_wallpaper env s).store = s) := by
  have hactne : ¬ (set_wallpaper_hyprpaper env.preload_ok env.monitor_results = true) := by
    simp [hact]
  by_cases h1 : (get_unshown_images env.pool1 s env.tSel1).2.isEmpty = true
  · by_cases h2 : env.sync_ok = true
    · by_cases h3 : (get_unshown_images env.pool2
          (get_unshown_images env.pool1 s env.tSel1).1 env.tSel2).2.isEmpty = true
      · have hcw : change_wallpaper env s =
            ⟨(get_unshown_images env.pool2
                (get_unshown_images env.pool1 s env.tSel1).1 env.tSel2).1,
              false, 1, none⟩ := by
          unfold change_wallpaper
          rw [if_pos h1, if_pos h2, if_pos h3]
        rw [hcw]
        refine ⟨rfl, rfl, Or.inr rfl, ?_⟩
        intro hflag
        show (get_unshown_images env.pool2
            (get_unshown_images env.pool1 s env.tSel1).1 env.tSel2).1 = s
        rw [get_unshown_of_not_exhausted env.pool1 env.tSel1 hflag,
          get_unshown_of_not_exhausted env.pool2 env.tSel2 hflag]
      · have hcw : change_wallpaper env s =
            ⟨(get_unshown_images env.pool2
                (get_unshown_images env.pool1 s env.tSel1).1 env.tSel2).1,
              false, 1, none⟩ := by
          unfold change_wallpaper
          rw [if_pos h1, if_pos h2, if_neg h3, if_neg hactne]
        rw [hcw]
        refine ⟨rfl, rfl, Or.inr rfl, ?_⟩
        intro hflag
        show (get_unshown_images env.pool2
            (get_unshown_images env.pool1 s env.tSel1).1 env.tSel2).1 = s
        rw [get_unshown_of_not_exhausted env.pool1 env.tSel1 hflag,
          get_unshown_of_not_exhausted env.pool2 env.tSel2 hflag]
    · have hcw : change_wallpaper env s =
          ⟨(get_unshown_images env.pool1 s env.tSel1).1, false, 1, none⟩ := by
        unfold change_wallpaper
        rw [if_pos h1, if_neg h2]
      rw [hcw]
      refine ⟨rfl, rfl, Or.inl rfl, ?_⟩
      intro hflag
      exact get_unshown_of_not_exhausted env.pool1 env.tSel1 hflag
  · have hcw : change_wallpaper env s =
        ⟨(get_unshown_images env.pool1 s env.tSel1).1, false, 0, none⟩ := by
      unfold change_wallpaper
      rw [if_neg h1, if_neg hactne]
    rw [hcw]
    refine ⟨rfl, rfl, Or.inl rfl, ?_⟩
    intro hflag
    exact get_unshown_of_not_exhausted env.pool1 env.tSel1 hflag

theorem C4_record_after_activate_witness :
    (change_wallpaper ⟨["a"], 0, false, [], 0, 0, false, [], ["a"], 1⟩
        initStore).success = false ∧
    (change_wallpaper ⟨["a"], 0, false, [], 0, 0, false, [], ["a"], 1⟩
        initStore).store = initStore :=
  ⟨(C4_record_after_activate ⟨["a"], 0, false, [], 0, 0, false, [], ["a"], 1⟩
      initStore rfl).1,
    (C4_record_after_activate ⟨["a"], 0, false, [], 0, 0, false, [], ["a"], 1⟩
      initStore rfl).2.2.2 rfl⟩

/-- C7: if the first candidate computation comes back empty,
`change_wallpaper` invokes `sync_images` exactly once and recomputes the
candidates at most once more; if they are still empty (or the sync
failed) the call returns failure without selecting or recording any
image. -/
theorem C7_empty_candidates_retry (env : CycleEnv) (s : Store)
    (h1 : (get_unshown_images env.pool1 s env.tSel1).2 = []) :
    (change_wallpaper env s).sync_calls = 1 ∧
    ((env.sync_ok = false ∨
        (get_unshown_images env.pool2
          (get_unshown_images env.pool1 s env.tSel1).1 env.tSel2).2 = []) →
      (change_wallpaper env s).success = false ∧
      (change_wallpaper env s).recorded = none) := by
  have he : (get_unshown_images env.pool1 s env.tSel1).2.isEmpty = true := by
    rw [h1]
    rfl
  by_cases h2 : env.sync_ok = true
  · by_cases h3 : (get_unshown_images env.pool2
        (get_unshown_images env.pool1 s env.tSel1).1 env.tSel2).2.isEmpty = true
    · have hcw : change_wallpaper env s =
          ⟨(get_unshown_images env.pool2
              (get_unshown_images env.pool1 s env.tSel1).1 env.tSel2).1,
            false, 1, none⟩ := by
        unfold change_wallpaper
        rw [if_pos he, if_pos h2, if_pos h3]
      rw [hcw]
      exact ⟨rfl, fun _ => ⟨rfl, rfl⟩⟩
    · by_cases hact : set_wallpaper_hyprpaper env.preload_ok env.monitor_results = true
      · have hcw : change_wallpaper env s =
            ⟨mark_image_displayed
                (get_unshown_images env.pool2
                  (get_unshown_images env.pool1 s env.tSel1).1 env.tSel2).1
                (chooseImage (get_unshown_images env.pool2
                  (get_unshown_images env.pool1 s env.tSel1).1 env.tSel2).2 env.pick)
                env.tRec env.poolRec.length,
              true, 1,
              some (chooseImage (get_unshown_images env.pool2
                (get_unshown_images env.pool1 s env.tSel1).1 env.tSel2).2 env.pick)⟩ := by
          unfold change_wallpaper
          rw [if_pos he, if_pos h2, if_neg h3, if_pos hact]
        rw [hcw]
        refine ⟨rfl, ?_⟩
        intro hd
        rcases hd with hd | hd
        · rw [h2] at hd
          exact absurd hd (by simp)
        · rw [hd] at h3
          exact absurd rfl h3
      · have hcw : change_wallpaper env s =
            ⟨(get_unshown_images env.pool2
                (get_unshown_images env.pool1 s env.tSel1).1 env.tSel2).1,
              false, 1, none⟩ := by
          unfold change_wallpaper
          rw [if_pos he, if_pos h2, if_neg h3, if_neg hact]
        rw [hcw]
        exact ⟨rfl, fun _ => ⟨rfl, rfl⟩⟩
  · have hcw : change_wallpaper env s =
        ⟨(get_unshown_images env.pool1 s env.tSel1).1, false, 1, none⟩ := by
      unfold change_wallpaper
      rw [if_pos he, if_neg h2]
    rw [hcw]
    exact ⟨rfl, fun _ => ⟨rfl, rfl⟩⟩

theorem C7_empty_candidates_retry_witness :
    (change_wallpaper ⟨[], 0, false, [], 0, 0, true, [], [], 0⟩
        initStore).sync_calls = 1 ∧
    (change_wallpaper ⟨[], 0, false, [], 0, 0, true, [], [], 0⟩
        initStore).success = false :=
  ⟨(C7_empty_candidates_retry ⟨[], 0, false, [], 0, 0, true, [], [], 0⟩
      initStore rfl).1,
    ((C7_empty_candidates_retry ⟨[], 0, false, [], 0, 0, true, [], [], 0⟩
      initStore rfl).2 (Or.inl rfl)).1⟩

/-- C8: when the preload step succeeds, `set_wallpaper_hyprpaper` returns
True even if some (but not all) per-monitor activations fail, and every
cycle that reaches activation is treated as success: whether the
candidates came from the first computation or from the recompute after a
successful sync retry, `change_wallpaper` records the selected image via
`mark_image_displayed` and returns True. -/
theorem C8_best_effort_activation (env : CycleEnv) (s : Store)
    (hpre : env.preload_ok = true)
    (hone : true ∈ env.monitor_results)
    (hfail : false ∈ env.monitor_results) :
    set_wallpaper_hyprpaper env.preload_ok env.monitor_results = true ∧
    (¬ (get_unshown_images env.pool1 s env.tSel1).2 = [] →
      (change_wallpaper env s).success = true ∧
      (change_wallpaper env s).recorded
        = some (chooseImage (get_unshown_images env.pool1 s env.tSel1).2 env.pick) ∧
      (change_wallpaper env s).store
        = mark_image_displayed (get_unshown_images env.pool1 s env.tSel1).1
            (chooseImage (get_unshown_images env.pool1 s env.tSel1).2 env.pick)
            env.tRec env.poolRec.length) ∧
    ((get_unshown_images env.pool1 s env.tSel1).2 = [] →
      env.sync_ok = true →
      ¬ (get_unshown_images env.pool2
          (get_unshown_images env.pool1 s env.tSel1).1 env.tSel2).2 = [] →
      (change_wallpaper env s).success = true ∧
      (change_wallpaper env s).recorded
        = some (chooseImage (get_unshown_images env.pool2
            (get_unshown_images env.pool1 s env.tSel1).1 env.tSel2).2 env.pick) ∧
      (change_wallpaper env s).store
        = mark_image_displayed
            (get_unshown_images env.pool2
              (get_unshown_images env.pool1 s env.tSel1).1 env.tSel2).1
            (chooseImage (get_unshown_images env.pool2
              (get_unshown_images env.pool1 s env.tSel1).1 env.tSel2).2 env.pick)
            env.tRec env.poolRec.length) := by
  have hact : set_wallpaper_hyprpaper env.preload_ok env.monitor_results = true := by
    simp [set_wallpaper_hyprpaper, hpre]
  refine ⟨hact, ?_, ?_⟩
  · intro hne
    have he : ¬ ((get_unshown_images env.pool1 s env.tSel1).2.isEmpty = true) := by
      simp [List.isEmpty_iff, hne]
    have hcw : change_wallpaper env s =
        ⟨mark_image_displayed (get_unshown_images env.pool1 s env.tSel1).1
            (chooseImage (get_unshown_images env.pool1 s env.tSel1).2 env.pick)
            env.tRec env.poolRec.length,
          true, 0,
          some (chooseImage (get_unshown_images env.pool1 s env.tSel1).2 env.pick)⟩ := by
      unfold change_wallpaper
      rw [if_neg he, if_pos hact]
    rw [hcw]
    exact ⟨rfl, rfl, rfl⟩
  · intro h1 h2 hne2
    have he1 : (get_unshown_images env.pool1 s env.tSel1).2.isEmpty = true := by
      rw [h1]
      rfl
    have he2 : ¬ ((get_unshown_images env.pool2
        (get_unshown_images env.pool1 s env.tSel1).1 env.tSel2).2.isEmpty = true) := by
      simp [List.isEmpty_iff, hne2]
    have hcw : change_wallpaper env s =
        ⟨mark_image_displayed
            (get_unshown_images env.pool2
              (get_unshown_images env.pool1 s env.tSel1).1 env.tSel2).1
            (chooseImage (get_unshown_images env.pool2
              (get_unshown_images env.pool1 s env.tSel1).1 env.tSel2).2 env.pick)
            env.tRec env.poolRec.length,
          true, 1,
          some (chooseImage (get_unshown_images env.pool2
            (get_unshown_images env.pool1 s env.tSel1).1 env.tSel2).2 env.pick)⟩ := by
      unfold change_wallpaper
      rw [if_pos he1, if_pos h2, if_neg he2, if_pos hact]
    rw [hcw]
    exact ⟨rfl, rfl, rfl⟩

theorem C8_best_effort_activation_witness :
    (change_wallpaper ⟨["a"], 0, false, [], 0, 0, true, [true, false], ["a"], 3⟩
        initStore).success = true ∧
    (change_wallpaper ⟨["a"], 0, false, [], 0, 0, true, [true, false], ["a"], 3⟩
        initStore).recorded = some "a" ∧
    (change_wallpaper ⟨[], 0, true, ["b"], 0, 0, true, [true, false], ["b"], 3⟩
        initStore).success = true ∧
    (change_wallpaper ⟨[], 0, true, ["b"], 0, 0, true, [true, false], ["b"], 3⟩
        initStore).recorded = some "b" := by
  have h1 := (C8_best_effort_activation
    ⟨["a"], 0, false, [], 0, 0, true, [true, false], ["a"], 3⟩
    initStore rfl (by decide) (by decide)).2.1 (by decide)
  have h2 := (C8_best_effort_activation
    ⟨[], 0, true, ["b"], 0, 0, true, [true, false], ["b"], 3⟩
    initStore rfl (by decide) (by decide)).2.2 rfl rfl (by decide)
  exact ⟨h1.1, h1.2.1, h2.1, h2.2.1⟩

section MarkAllLemmas

lemma markAll_append (s : Store) (l1 l2 : List (String × Nat)) (total : Nat) :
    markAll s (l1 ++ l2) total = markAll (markAll s l1 total) l2 total := by
  simp [markAll, List.foldl_append]

lemma shown_mono_mark {s : Store} {g : String} {t tot : Nat} {x : String}
    (hx : x ∈ shownFilenames s) :
    x ∈ shownFilenames (mark_image_displayed s g t tot) := by
  rw [shownFilenames_eq_shownOf] at hx ⊢
  rw [mark_records]
  exact shown_mono_upsert hx

lemma shown_mono_markAll {s : Store} {fs : List (String × Nat)} {total : Nat}
    {x : String} (hx : x ∈ shownFilenames s) :
    x ∈ shownFilenames (markAll s fs total) := by
  induction fs generalizing s with
  | nil => exact hx
  | cons p ps ih =>
    show x ∈ shownFilenames (markAll (mark_image_displayed s p.1 p.2 total) ps total)
    exact ih (shown_mono_mark hx)

lemma self_shown_mark (s : Store) (f : String) (t tot : Nat) :
    f ∈ shownFilenames (mark_image_displayed s f t tot) := by
  rw [shownFilenames_eq_shownOf, mark_records]
  exact self_mem_shown_upsert s.records f t

lemma markAll_all_shown (s : Store) (fs : List (String × Nat)) (total : Nat) :
    ∀ p ∈ fs, p.1 ∈ shownFilenames (markAll s fs total) := by
  induction fs generalizing s with
  | nil =>
    intro p hp
    cases hp
  | cons q qs ih =>
    intro p hp
    rcases List.mem_cons.mp hp with h | h
    · subst h
      show p.1 ∈ shownFilenames (markAll (mark_image_displayed s p.1 p.2 total) qs total)
      exact shown_mono_markAll (self_shown_mark s p.1 p.2 total)
    · exact ih (mark_image_displayed s q.1 q.2 total) p h

lemma markAll_shownCount_ge {s : Store} {fs : List (String × Nat)} {total : Nat}
    (hnd : (fs.map Prod.fst).Nodup) :
    fs.length ≤ shownCount (markAll s fs total) := by
  rw [shownCount_eq]
  have hsub : ∀ x ∈ fs.map Prod.fst, x ∈ shownFilenames (markAll s fs total) := by
    intro x hx
    obtain ⟨p, hp, rfl⟩ := List.mem_map.mp hx
    exact markAll_all_shown s fs total p hp
  have h := length_le_of_nodup_subset hnd hsub
  simpa using h

end MarkAllLemmas

/-- C3: with a fixed pool of N ≥ 1 distinct filenames, marking N distinct
pool filenames (in any order, at any timestamps) starting from a freshly
reset store (all counts zero, flag clear) leaves `all_images_shown`
true. -/
theorem C3_exhaustion_correctness (pool : List String) (s : Store)
    (fs : List (String × Nat))
    (hreset : ∀ r ∈ s.records, r.display_count = 0)
    (hflag : s.all_images_shown = false)
    (hfsnd : (fs.map Prod.fst).Nodup)
    (hcover : ∀ p ∈ fs, p.1 ∈ pool)
    (hlen : fs.length = pool.length)
    (hN : 1 ≤ pool.length) :
    (markAll s fs pool.length).all_images_shown = true := by
  have hfs_ne : fs ≠ [] := by
    intro h
    rw [h] at hlen
    simp only [List.length_nil] at hlen
    omega
  obtain ⟨l, p, hfs⟩ : ∃ l p, fs = l ++ [p] :=
    ⟨fs.dropLast, fs.getLast hfs_ne, (List.dropLast_append_getLast hfs_ne).symm⟩
  subst hfs
  rw [markAll_append]
  show (mark_image_displayed (markAll s l pool.length) p.1 p.2
      pool.length).all_images_shown = true
  apply mark_flag_true_of_count
  · have h1 : (l ++ [p]).length ≤ shownCount (markAll s (l ++ [p]) pool.length) :=
      markAll_shownCount_ge hfsnd
    rw [markAll_append] at h1
    calc pool.length = (l ++ [p]).length := hlen.symm
      _ ≤ shownCount (markAll (markAll s l pool.length) [p] pool.length) := h1
      _ = shownCount (mark_image_displayed (markAll s l pool.length) p.1 p.2
            pool.length) := rfl
  · omega

theorem C3_exhaustion_correctness_witness :
    (markAll initStore [("a", 7)] ["a"].length).all_images_shown = true :=
  C3_exhaustion_correctness ["a"] initStore [("a", 7)] (by simp [initStore]) rfl
    (by simp) (by simp) rfl (by simp)

section InvariantLemmas

lemma storeInv_init (pool : List String) (hne : pool ≠ []) :
    StoreInv pool initStore := by
  refine ⟨List.nodup_nil, ?_, ?_⟩
  · intro x hx
    simp [shownFilenames, initStore] at hx
  · constructor
    · intro h
      simp [initStore] at h
    · intro h
      exfalso
      rcases hp : pool with _ | ⟨q, qs⟩
      · exact hne hp
      · have hq := h q (by rw [hp]; simp)
        simp [shownFilenames, initStore] at hq

lemma storeInv_reset (pool : List String) (s : Store) (t : Nat)
    (hne : pool ≠ []) (hinv : StoreInv pool s) :
    StoreInv pool (resetCycle s t) := by
  obtain ⟨hnd, _, _⟩ := hinv
  refine ⟨?_, ?_, ?_⟩
  · rw [show recordFilenames (resetCycle s t) = recordFilenames s from
      recordFilenames_reset s t]
    exact hnd
  · intro x hx
    rw [shownFilenames_reset] at hx
    cases hx
  · constructor
    · intro h
      simp [resetCycle] at h
    · intro h
      exfalso
      rcases hp : pool with _ | ⟨q, qs⟩
      · exact hne hp
      · have hq := h q (by rw [hp]; simp)
        rw [shownFilenames_reset] at hq
        cases hq

lemma storeInv_select (pool q : List String) (s : Store) (t : Nat)
    (hne : pool ≠ []) (hinv : StoreInv pool s) :
    StoreInv pool (get_unshown_images q s t).1 := by
  by_cases h : s.all_images_shown = true
  · rw [get_unshown_of_exhausted q t h]
    exact storeInv_reset pool s t hne hinv
  · rw [get_unshown_of_not_exhausted q t (by simpa using h)]
    exact hinv

lemma storeInv_record (pool : List String) (s : Store) (t t2 : Nat) (f : String)
    (hne : pool ≠ []) (hnd : pool.Nodup) (hinv : StoreInv pool s)
    (hf : f ∈ (get_unshown_images pool s t).2) :
    StoreInv pool
      (mark_image_displayed (get_unshown_images pool s t).1 f t2 pool.length) := by
  obtain ⟨hnd1, hsub1, _⟩ := storeInv_select pool pool s t hne hinv
  have hflag1 : (get_unshown_images pool s t).1.all_images_shown = false :=
    get_unshown_flag_false pool s t
  have hfp : f ∈ pool := (mem_get_unshown hf).1
  have hndm : (recordFilenames
      (mark_image_displayed (get_unshown_images pool s t).1 f t2 pool.length)).Nodup := by
    show ((upsertRecord (get_unshown_images pool s t).1.records f t2).map
      (fun r => r.filename)).Nodup
    exact upsert_filename_nodup hnd1
  have hsubm : ∀ x ∈ shownFilenames
      (mark_image_displayed (get_unshown_images pool s t).1 f t2 pool.length),
      x ∈ pool := by
    intro x hx
    rw [shownFilenames_eq_shownOf, mark_records] at hx
    rcases shown_subset_upsert hx with h | h
    · rw [h]
      exact hfp
    · exact hsub1 x h
  refine ⟨hndm, hsubm, ?_⟩
  have hflagm : (mark_image_displayed (get_unshown_images pool s t).1 f t2
      pool.length).all_images_shown =
      (if pool.length ≤ shownCount (mark_image_displayed
          (get_unshown_images pool s t).1 f t2 pool.length) ∧ 0 < pool.length
        then true else false) := by
    rw [mark_flag, hflag1]
  by_cases hc : pool.length ≤ shownCount (mark_image_displayed
      (get_unshown_images pool s t).1 f t2 pool.length) ∧ 0 < pool.length
  · rw [hflagm, if_pos hc]
    constructor
    · intro _
      exact fun x hx =>
        mem_of_nodup_subset_length_le (shownFilenames_nodup hndm) hsubm hnd
          (by rw [← shownCount_eq]; exact hc.1) x hx
    · intro _
      rfl
  · rw [hflagm, if_neg hc]
    constructor
    · intro h
      simp at h
    · intro hall
      exfalso
      apply hc
      constructor
      · rw [shownCount_eq]
        exact length_le_of_nodup_subset hnd (fun x hx => hall x hx)
      · rcases hp : pool with _ | ⟨q, qs⟩
        · exact absurd hp hne
        · simp

lemma reachable_storeInv {pool : List String} (hne : pool ≠ [])
    (hnd : pool.Nodup) : ∀ s : Store, Reachable pool s → StoreInv pool s := by
  intro s h
  induction h with
  | init => exact storeInv_init pool hne
  | select s' t _ ih => exact storeInv_select pool pool s' t hne ih
  | record s' t t2 f _ hf ih => exact storeInv_record pool s' t t2 f hne hnd ih hf

end InvariantLemmas

/-- C1 as frozen is false: the initial store is reachable, and with an
empty pool every pool filename vacuously has a shown record while
`all_images_shown` is false, so the "exactly when" equivalence fails. -/
theorem C1_counterexample :
    Reachable [] initStore ∧
    ¬ (initStore.all_images_shown = true ↔ allPoolShown [] initStore) :=
  ⟨Reachable.init, by decide⟩

/-- C1 amended: for a fixed, non-empty, duplicate-free pool, in every
store state reachable from a fresh installation through
`get_unshown_images` and candidate-driven `mark_image_displayed` calls,
`all_images_shown` is true exactly when every pool filename has a history
row with `display_count > 0`. -/
theorem C1_flag_iff_all_pool_shown (pool : List String) (s : Store)
    (hne : pool ≠ []) (hnd : pool.Nodup) (hr : Reachable pool s) :
    s.all_images_shown = true ↔ allPoolShown pool s :=
  (reachable_storeInv hne hnd s hr).2.2

theorem C1_flag_iff_all_pool_shown_witness :
    ["a"] ≠ ([] : List String) ∧
    (initStore.all_images_shown = true ↔ allPoolShown ["a"] initStore) :=
  ⟨by decide,
    C1_flag_iff_all_pool_shown ["a"] initStore (by decide) (by decide)
      Reachable.init⟩
